import Mathlib

/-!
Verification of the imgpheno geometric feature-extraction layer.

The repository ships the test suite (tests/test_features.py) and a batch
example (examples/splitter.py); the feature functions themselves
(point_dist, get_largest_contour, shape_outline, shape_360,
contour_properties) are exercised through their specified contracts.
Definitions marked "Modelled from the spec" embed those functions from
the specification text; the rest embed the Python sources directly.
Coordinates are rational numbers; square roots and trigonometry live in ℝ.
-/

namespace Imgpheno

/-- A planar point with rational coordinates, the value type Point2D. -/
abbrev Point : Type := ℚ × ℚ

/-- Cross product of two points taken as vectors from the origin. -/
def cross (a b : Point) : ℚ := a.1 * b.2 - b.1 * a.2

/-- Modelled from the spec: the shoelace summation over consecutive vertex
pairs of a closed polygon, wrapping from the last vertex back to `first`. -/
def shoelaceAux (first : Point) : List Point → ℚ
  | [] => 0
  | [a] => cross a first
  | a :: b :: rest => cross a b + shoelaceAux first (b :: rest)

/-- Modelled from the spec: the full cyclic shoelace sum of a contour. -/
def shoelaceSum : List Point → ℚ
  | [] => 0
  | p :: rest => shoelaceAux p (p :: rest)

/-- Modelled from the spec: signed polygon area (half the shoelace sum). -/
def signedArea (c : List Point) : ℚ := shoelaceSum c / 2

/-- Modelled from the spec (section 4.3, key Area): absolute value of the
shoelace-formula polygon area of the contour. `contour_properties` and
`get_largest_contour` both rank contours by this quantity. -/
def contourArea (c : List Point) : ℚ := |shoelaceSum c| / 2

/-- An axis-aligned rectangle of width `w` and height `h` with one corner at
the origin, traced counter-clockwise as a contour. -/
def rectContour (w h : ℚ) : List Point := [(0, 0), (w, 0), (w, h), (0, h)]

/-- Retrieval mode of the contour-tracing collaborator: only outermost
boundaries, or all boundaries including holes. -/
inductive RetrievalMode where
  | external
  | all
  deriving DecidableEq

/-- One contour of a ContourSet together with its hierarchy tag telling
whether it is an outermost (external) boundary. -/
structure ContourInfo where
  points : List Point
  isExternal : Bool
  deriving DecidableEq

/-- Modelled from the spec: the subset of a contour set that is eligible
under the given retrieval mode. -/
def eligibleContours (mode : RetrievalMode) (cs : List ContourInfo) : List ContourInfo :=
  match mode with
  | .external => cs.filter (fun c => c.isExternal)
  | .all => cs

/-- One selection step: replace the current best only on strictly larger
area, so that ties keep the first-encountered contour. -/
def pickLarger (best c : ContourInfo) : ContourInfo :=
  if contourArea best.points < contourArea c.points then c else best

/-- Modelled from the spec: `get_largest_contour` is missing from src/ (only
its callers in tests/test_features.py appear). Among the contours eligible
under `mode`, return the one of maximal shoelace area, ties broken by
first-encountered order; fail with EmptyInputError when the filtered set is
empty. -/
def get_largest_contour (cs : List ContourInfo) (mode : RetrievalMode) :
    Except String (List Point) :=
  match eligibleContours mode cs with
  | [] => .error "EmptyInputError"
  | c :: rest => .ok ((rest.foldl pickLarger c).points)

/-- An external contour of area 10 (a 5 by 2 rectangle). -/
def smallRect : ContourInfo := ⟨rectContour 5 2, true⟩

/-- An external contour of area 1000 (a 40 by 25 rectangle). -/
def largeRect : ContourInfo := ⟨rectContour 40 25, true⟩

theorem contourArea_rect (w h : ℚ) (hw : 0 ≤ w) (hh : 0 ≤ h) :
    contourArea (rectContour w h) = w * h := by
  have habs : |w * h * 2| = w * h * 2 := abs_of_nonneg (by positivity)
  simp only [contourArea, shoelaceSum, shoelaceAux, cross, rectContour]
  ring_nf
  ring_nf at habs
  rw [habs]
  ring

theorem contourArea_smallRect : contourArea smallRect.points = 10 := by
  have h := contourArea_rect 5 2 (by norm_num) (by norm_num)
  rw [show smallRect.points = rectContour 5 2 from rfl, h]
  norm_num

theorem contourArea_largeRect : contourArea largeRect.points = 1000 := by
  have h := contourArea_rect 40 25 (by norm_num) (by norm_num)
  rw [show largeRect.points = rectContour 40 25 from rfl, h]
  norm_num

theorem get_largest_example :
    get_largest_contour [smallRect, largeRect] RetrievalMode.external =
      .ok largeRect.points := by
  have he : eligibleContours RetrievalMode.external [smallRect, largeRect] =
      [smallRect, largeRect] := by
    simp [eligibleContours, smallRect, largeRect]
  unfold get_largest_contour
  rw [he]
  show Except.ok ((pickLarger smallRect largeRect).points) = Except.ok largeRect.points
  rw [pickLarger.eq_def, contourArea_smallRect, contourArea_largeRect,
    if_pos (by norm_num : (10 : ℚ) < 1000)]

theorem foldl_pickLarger_spec (l : List ContourInfo) (init : ContourInfo) :
    (∀ c ∈ l, contourArea c.points ≤ contourArea (l.foldl pickLarger init).points) ∧
    contourArea init.points ≤ contourArea (l.foldl pickLarger init).points ∧
    (l.foldl pickLarger init = init ∨
      ∃ l₁ l₂, l = l₁ ++ (l.foldl pickLarger init) :: l₂ ∧
        contourArea init.points < contourArea (l.foldl pickLarger init).points ∧
        ∀ c ∈ l₁, contourArea c.points < contourArea (l.foldl pickLarger init).points) := by
  induction l generalizing init with
  | nil =>
    refine ⟨?_, le_refl _, Or.inl rfl⟩
    intro c hc
    exact absurd hc (List.not_mem_nil c)
  | cons a t ih =>
    by_cases h : contourArea init.points < contourArea a.points
    · have hstep : (a :: t).foldl pickLarger init = t.foldl pickLarger a := by
        rw [List.foldl_cons]
        simp only [pickLarger, if_pos h]
      obtain ⟨ih1, ih2, ih3⟩ := ih a
      refine ⟨?_, ?_, ?_⟩
      · intro c hc
        rw [hstep]
        rcases List.mem_cons.mp hc with hc | hc
        · exact hc ▸ ih2
        · exact ih1 c hc
      · rw [hstep]; exact le_of_lt (lt_of_lt_of_le h ih2)
      · rw [hstep]
        rcases ih3 with heq | ⟨l₁, l₂, hsplit, hlt, hall⟩
        · refine Or.inr ⟨[], t, ?_, ?_, ?_⟩
          · rw [heq]; rfl
          · rw [heq]; exact h
          · intro c hc; exact absurd hc (List.not_mem_nil c)
        · refine Or.inr ⟨a :: l₁, l₂, ?_, lt_trans h hlt, ?_⟩
          · rw [List.cons_append, ← hsplit]
          · intro c hc
            rcases List.mem_cons.mp hc with hc | hc
            · exact hc ▸ hlt
            · exact hall c hc
    · have hstep : (a :: t).foldl pickLarger init = t.foldl pickLarger init := by
        rw [List.foldl_cons]
        simp only [pickLarger, if_neg h]
      obtain ⟨ih1, ih2, ih3⟩ := ih init
      refine ⟨?_, ?_, ?_⟩
      · intro c hc
        rw [hstep]
        rcases List.mem_cons.mp hc with hc | hc
        · exact hc ▸ le_trans (le_of_not_lt h) ih2
        · exact ih1 c hc
      · rw [hstep]; exact ih2
      · rw [hstep]
        rcases ih3 with heq | ⟨l₁, l₂, hsplit, hlt, hall⟩
        · exact Or.inl heq
        · refine Or.inr ⟨a :: l₁, l₂, ?_, hlt, ?_⟩
          · rw [List.cons_append, ← hsplit]
          · intro c hc
            rcases List.mem_cons.mp hc with hc | hc
            · exact hc ▸ lt_of_le_of_lt (le_of_not_lt h) hlt
            · exact hall c hc

/-- C1: get_largest_contour returns the eligible contour of maximal shoelace
area with ties broken by first-encountered order; on the set containing one
external contour of area 10 and one of area 1000 it returns the area-1000
contour; when the set filtered by the retrieval mode is empty it fails with
EmptyInputError. -/
theorem get_largest_contour_spec :
    (∀ cs mode, eligibleContours mode cs = [] →
      get_largest_contour cs mode = .error "EmptyInputError") ∧
    (∀ cs mode r, get_largest_contour cs mode = .ok r →
      (∃ c ∈ eligibleContours mode cs, c.points = r) ∧
      (∀ c ∈ eligibleContours mode cs, contourArea c.points ≤ contourArea r) ∧
      (∃ l₁ l₂ c, eligibleContours mode cs = l₁ ++ c :: l₂ ∧ c.points = r ∧
        ∀ d ∈ l₁, contourArea d.points < contourArea r)) ∧
    contourArea smallRect.points = 10 ∧
    contourArea largeRect.points = 1000 ∧
    get_largest_contour [smallRect, largeRect] .external = .ok largeRect.points := by
  refine ⟨?_, ?_, contourArea_smallRect, contourArea_largeRect, get_largest_example⟩
  · intro cs mode h
    unfold get_largest_contour
    rw [h]
  · intro cs mode r hr
    unfold get_largest_contour at hr
    rcases helig : eligibleContours mode cs with _ | ⟨c, rest⟩ <;> rw [helig] at hr
    · exact absurd hr (by simp)
    · have hspec := foldl_pickLarger_spec rest c
      have hfold : (rest.foldl pickLarger c).points = r := by
        simpa using hr
      set b := rest.foldl pickLarger c with hb
      obtain ⟨h1, h2, h3⟩ := hspec
      refine ⟨?_, ?_, ?_⟩
      · refine ⟨b, ?_, hfold⟩
        rcases h3 with heq | ⟨l₁, l₂, hsplit, _, _⟩
        · rw [heq]; exact List.mem_cons_self c rest
        · rw [hsplit]
          exact List.mem_cons_of_mem c (List.mem_append_right l₁ (List.mem_cons_self _ _))
      · intro d hd
        rw [← hfold]
        rcases List.mem_cons.mp hd with hd | hd
        · exact hd ▸ h2
        · exact h1 d hd
      · rcases h3 with heq | ⟨l₁, l₂, hsplit, hlt, hall⟩
        · refine ⟨[], rest, b, ?_, hfold, ?_⟩
          · rw [heq]; rfl
          · intro d hd; exact absurd hd (List.not_mem_nil d)
        · refine ⟨c :: l₁, l₂, b, ?_, hfold, ?_⟩
          · rw [List.cons_append, ← hsplit]
          · intro d hd
            rw [← hfold]
            rcases List.mem_cons.mp hd with hd | hd
            · exact hd ▸ hlt
            · exact hall d hd

/-- Concrete instances of get_largest_contour_spec: the empty contour set
fails with EmptyInputError, and on the area-10 / area-1000 pair the selected
area-1000 contour is maximal among the eligible contours. -/
theorem get_largest_contour_spec_witness :
    get_largest_contour [] RetrievalMode.external = .error "EmptyInputError" ∧
    (∃ c ∈ eligibleContours RetrievalMode.external [smallRect, largeRect],
      c.points = largeRect.points) ∧
    (∀ c ∈ eligibleContours RetrievalMode.external [smallRect, largeRect],
      contourArea c.points ≤ contourArea largeRect.points) :=
  ⟨get_largest_contour_spec.1 [] RetrievalMode.external rfl,
    (get_largest_contour_spec.2.1 [smallRect, largeRect] RetrievalMode.external
      largeRect.points get_largest_example).1,
    (get_largest_contour_spec.2.1 [smallRect, largeRect] RetrievalMode.external
      largeRect.points get_largest_example).2.1⟩

/-- Modelled from the spec: `point_dist` is missing from src/ (only its
callers in tests/test_features.py appear). The standard Euclidean norm of
p1 - p2, a pure function. -/
noncomputable def point_dist (p1 p2 : Point) : ℝ :=
  Real.sqrt (((p1.1 - p2.1 : ℚ) : ℝ) ^ 2 + ((p1.2 - p2.2 : ℚ) : ℝ) ^ 2)

/-- Rounding to four decimal places, returned as an integer count of
ten-thousandths; this agrees with Python round away from midpoints. -/
noncomputable def round4 (x : ℝ) : ℤ := ⌊x * 10000 + 1 / 2⌋

theorem sqrt_bracket (y a b : ℝ) (ha : 0 ≤ a) (hb : 0 ≤ b) (hy : 0 ≤ y)
    (hlow : a ^ 2 ≤ y) (hhigh : y < b ^ 2) :
    a ≤ Real.sqrt y ∧ Real.sqrt y < b := by
  constructor
  · calc a = Real.sqrt (a ^ 2) := (Real.sqrt_sq ha).symm
    _ ≤ Real.sqrt y := Real.sqrt_le_sqrt hlow
  · calc Real.sqrt y < Real.sqrt (b ^ 2) := Real.sqrt_lt_sqrt hy hhigh
    _ = b := Real.sqrt_sq hb

/-- C7: point_dist is the nonnegative square root of the sum of squared
coordinate differences (the Euclidean norm of p1 - p2), it is symmetric,
and its values at ((0,0),(8,9)) and ((1,3),(8,9)) round at four decimal
places to 12.0416 and 9.2195. -/
theorem point_dist_spec :
    (∀ p1 p2 : Point, 0 ≤ point_dist p1 p2 ∧
      point_dist p1 p2 ^ 2 =
        ((p1.1 - p2.1 : ℚ) : ℝ) ^ 2 + ((p1.2 - p2.2 : ℚ) : ℝ) ^ 2 ∧
      point_dist p1 p2 = point_dist p2 p1) ∧
    round4 (point_dist (0, 0) (8, 9)) = 120416 ∧
    round4 (point_dist (1, 3) (8, 9)) = 92195 := by
  refine ⟨?_, ?_, ?_⟩
  · intro p1 p2
    refine ⟨Real.sqrt_nonneg _, Real.sq_sqrt (by positivity), ?_⟩
    unfold point_dist
    congr 1
    push_cast
    ring
  · have h145 : point_dist (0, 0) (8, 9) = Real.sqrt 145 := by
      unfold point_dist
      norm_num
    obtain ⟨hlo, hhi⟩ := sqrt_bracket 145 12.04155 12.04165
      (by norm_num) (by norm_num) (by norm_num) (by norm_num) (by norm_num)
    rw [round4, h145, Int.floor_eq_iff]
    constructor
    · push_cast; nlinarith
    · push_cast; nlinarith
  · have h85 : point_dist (1, 3) (8, 9) = Real.sqrt 85 := by
      unfold point_dist
      norm_num
    obtain ⟨hlo, hhi⟩ := sqrt_bracket 85 9.21945 9.21955
      (by norm_num) (by norm_num) (by norm_num) (by norm_num) (by norm_num)
    rw [round4, h85, Int.floor_eq_iff]
    constructor
    · push_cast; nlinarith
    · push_cast; nlinarith

/-- An image as the external reader delivers it: a raster with a height and
a width (examples/splitter.py obtains it from cv2.imread). -/
structure Image where
  height : ℕ
  width : ℕ
  deriving DecidableEq

/-- Number of pixels of an image, the img.size of numpy. -/
def imgSize (im : Image) : ℕ := im.height * im.width

/-- From examples/splitter.py lines 33-69: read the image at `path`; when
the read fails or yields an empty raster, write a skip message and return
-1 without raising; otherwise process the image and return 0. Segmentation
and segment writing are external collaborators with no effect on the
return code. -/
def split_image (readImage : String → Option Image) (path : String) : ℤ × String :=
  match readImage path with
  | none => (-1, "Failed to read " ++ path ++ ". Skipping.")
  | some img =>
    if imgSize img = 0 then (-1, "Failed to read " ++ path ++ ". Skipping.")
    else (0, "Processing " ++ path ++ "...")

/-- From examples/splitter.py lines 16-31: main runs split_image on every
input file in order, ignoring the per-file return codes, then returns 0. -/
def splitter_main (readImage : String → Option Image) (files : List String) :
    ℤ × List (ℤ × String) :=
  (0, files.map (fun f => split_image readImage f))

/-- C9: an unreadable input makes split_image log a skip message and return
-1 without raising; a readable nonempty input returns 0; and main processes
every file of the batch in order and returns 0 regardless of the per-file
outcomes, so one bad image never halts a batch. -/
theorem split_image_spec :
    (∀ read path, read path = none →
      split_image read path = (-1, "Failed to read " ++ path ++ ". Skipping.")) ∧
    (∀ read path img, read path = some img → imgSize img = 0 →
      split_image read path = (-1, "Failed to read " ++ path ++ ". Skipping.")) ∧
    (∀ read path img, read path = some img → imgSize img ≠ 0 →
      (split_image read path).1 = 0) ∧
    (∀ read files, (splitter_main read files).1 = 0 ∧
      (splitter_main read files).2 = files.map (fun f => split_image read f) ∧
      (splitter_main read files).2.length = files.length) := by
  refine ⟨?_, ?_, ?_, ?_⟩
  · intro read path h
    unfold split_image
    rw [h]
  · intro read path img h hsz
    unfold split_image
    rw [h]
    simp [hsz]
  · intro read path img h hsz
    unfold split_image
    rw [h]
    simp [hsz]
  · intro read files
    refine ⟨rfl, rfl, ?_⟩
    simp [splitter_main]

/-- Concrete instance of split_image_spec: a batch of two files, the first
unreadable and the second readable, still processes both files and main
returns 0; the unreadable file yields -1 with the skip message. -/
theorem split_image_spec_witness :
    split_image (fun p => if p = "bad.png" then none else some ⟨10, 10⟩) "bad.png" =
      (-1, "Failed to read bad.png. Skipping.") ∧
    (split_image (fun p => if p = "bad.png" then none else some ⟨10, 10⟩) "ok.png").1 = 0 ∧
    (splitter_main (fun p => if p = "bad.png" then none else some ⟨10, 10⟩)
      ["bad.png", "ok.png"]).1 = 0 ∧
    (splitter_main (fun p => if p = "bad.png" then none else some ⟨10, 10⟩)
      ["bad.png", "ok.png"]).2.length = 2 :=
  ⟨split_image_spec.1 (fun p => if p = "bad.png" then none else some ⟨10, 10⟩)
      "bad.png" (by simp),
    split_image_spec.2.2.1 (fun p => if p = "bad.png" then none else some ⟨10, 10⟩)
      "ok.png" ⟨10, 10⟩ (by simp) (by simp [imgSize]),
    (split_image_spec.2.2.2 (fun p => if p = "bad.png" then none else some ⟨10, 10⟩)
      ["bad.png", "ok.png"]).1,
    (split_image_spec.2.2.2 (fun p => if p = "bad.png" then none else some ⟨10, 10⟩)
      ["bad.png", "ok.png"]).2.2⟩

/-- A value passed to the test helper `error`: either a numeric scalar or a
sequence of numerics (tests/test_features.py lines 47-62). -/
inductive Val where
  | num (q : ℚ)
  | seq (l : List ℚ)
  deriving DecidableEq

/-- The accumulation loop of the helper `error`: e starts at 0 and adds
f(a[i], p[i]) in order; an exception raised by `f` propagates. -/
def accumLoop (f : ℚ → ℚ → Except String ℚ) : List (ℚ × ℚ) → ℚ → Except String ℚ
  | [], acc => .ok acc
  | xy :: rest, acc =>
    match f xy.1 xy.2 with
    | .error e => .error e
    | .ok v => accumLoop f rest (acc + v)

/-- The comparison helper `error` of tests/test_features.py (lines 47-62):
two scalars go straight to `f`; two equal-length sequences average `f` over
the pairs, dividing the accumulated sum by the length (which raises
ZeroDivisionError on empty sequences); every other combination of argument
shapes raises ValueError. -/
def error (a p : Val) (f : ℚ → ℚ → Except String ℚ) : Except String ℚ :=
  match a, p with
  | .num x, .num y => f x y
  | .seq xs, .seq ys =>
    if xs.length = ys.length then
      match accumLoop f (xs.zip ys) 0 with
      | .error e => .error e
      | .ok e =>
        if xs.length = 0 then .error "ZeroDivisionError"
        else .ok (e / (xs.length : ℚ))
    else .error "ValueError"
  | _, _ => .error "ValueError"

/-- The mean square error helper of tests/test_features.py (lines 64-66). -/
def mse (a p : ℚ) : ℚ := |p - a| ^ 2

/-- The mean absolute percentage error helper of tests/test_features.py
(lines 68-70): abs(p - a) / a with the division by `a` unguarded, so a zero
actual value raises ZeroDivisionError. -/
def mape (a p : ℚ) : Except String ℚ :=
  if a = 0 then .error "ZeroDivisionError" else .ok (|p - a| / a)

theorem accumLoop_pure (f : ℚ → ℚ → ℚ) (l : List (ℚ × ℚ)) (acc : ℚ) :
    accumLoop (fun a p => .ok (f a p)) l acc =
      .ok (acc + (l.map (fun xy => f xy.1 xy.2)).sum) := by
  induction l generalizing acc with
  | nil => simp [accumLoop]
  | cons xy rest ih => simp [accumLoop, ih, add_assoc]

/-- C10 counterexample: on two empty sequences the helper raises
ZeroDivisionError from the final division e / len(a); it neither returns an
arithmetic mean nor raises ValueError there, against the claim that every
non-scalar-pair, non-matching case is a ValueError. -/
theorem error_empty_seq_counterexample :
    error (Val.seq []) (Val.seq []) (fun a p => .ok (mse a p)) =
      .error "ZeroDivisionError" ∧
    error (Val.seq []) (Val.seq []) (fun a p => .ok (mse a p)) ≠
      .error "ValueError" ∧
    error (Val.seq []) (Val.seq []) (fun a p => .ok (mse a p)) ≠ .ok 0 := by
  refine ⟨rfl, ?_, ?_⟩ <;> intro h <;> simp [error, accumLoop] at h

/-- C10 (amended): the helper returns f(a, p) for two scalars, returns the
arithmetic mean of f over the pairs for two sequences of equal nonzero
length, raises ZeroDivisionError for two empty sequences, and raises
ValueError for mixed scalar/sequence arguments or unequal lengths; mape
divides by the actual value unguarded, so it succeeds exactly on nonzero
actual values. -/
theorem error_spec :
    (∀ x y f, error (.num x) (.num y) f = f x y) ∧
    (∀ (xs ys : List ℚ) (f : ℚ → ℚ → ℚ), xs.length = ys.length → xs ≠ [] →
      error (.seq xs) (.seq ys) (fun a p => .ok (f a p)) =
        .ok (((xs.zip ys).map (fun xy => f xy.1 xy.2)).sum / (xs.length : ℚ))) ∧
    (∀ f, error (.seq []) (.seq []) f = .error "ZeroDivisionError") ∧
    (∀ xs ys f, xs.length ≠ ys.length →
      error (.seq xs) (.seq ys) f = .error "ValueError") ∧
    (∀ x ys f, error (.num x) (.seq ys) f = .error "ValueError") ∧
    (∀ xs y f, error (.seq xs) (.num y) f = .error "ValueError") ∧
    (∀ a p, a ≠ 0 → mape a p = .ok (|p - a| / a)) ∧
    (∀ p, mape 0 p = .error "ZeroDivisionError") := by
  refine ⟨fun x y f => rfl, ?_, fun f => rfl, ?_, fun x ys f => rfl, fun xs y f => rfl,
    ?_, fun p => rfl⟩
  · intro xs ys f hlen hne
    have hnz : xs.length ≠ 0 := fun h => hne (List.length_eq_zero.mp h)
    have hysne : ys ≠ [] := by
      intro h
      apply hne
      apply List.length_eq_zero.mp
      rw [hlen, h]
      rfl
    simp [error, hlen, accumLoop_pure, hnz, hysne]
  · intro xs ys f hlen
    simp [error, hlen]
  · intro a p ha
    simp [mape, ha]

/-- Concrete instance of error_spec: on the same-length sequences [2, 4] and
[3, 5] with a pure per-element function the helper returns the mean, and
mape succeeds at the nonzero actual value 2. -/
theorem error_spec_witness :
    error (Val.seq [2, 4]) (Val.seq [3, 5]) (fun a p => .ok (mse a p)) =
      .ok (((([2, 4] : List ℚ).zip ([3, 5] : List ℚ)).map
        (fun xy => mse xy.1 xy.2)).sum / (([2, 4] : List ℚ).length : ℚ)) ∧
    mape 2 3 = .ok (|(3 : ℚ) - 2| / 2) :=
  ⟨error_spec.2.1 [2, 4] [3, 5] mse rfl (by simp),
    error_spec.2.2.2.2.2.2.1 2 3 (by norm_num)⟩

/-- The x coordinates of a contour. -/
def xCoords (c : List Point) : List ℚ := c.map Prod.fst

/-- The y coordinates of a contour. -/
def yCoords (c : List Point) : List ℚ := c.map Prod.snd

/-- Minimum of a coordinate list, 0 on the empty list. -/
def listMin : List ℚ → ℚ
  | [] => 0
  | a :: t => t.foldl min a

/-- Maximum of a coordinate list, 0 on the empty list. -/
def listMax : List ℚ → ℚ
  | [] => 0
  | a :: t => t.foldl max a

/-- Left edge of the axis-aligned bounding box of a contour. -/
def minX (c : List Point) : ℚ := listMin (xCoords c)

/-- Right edge of the axis-aligned bounding box of a contour. -/
def maxX (c : List Point) : ℚ := listMax (xCoords c)

/-- Bottom edge of the axis-aligned bounding box of a contour. -/
def minY (c : List Point) : ℚ := listMin (yCoords c)

/-- Top edge of the axis-aligned bounding box of a contour. -/
def maxY (c : List Point) : ℚ := listMax (yCoords c)

/-- The edges of a closed contour: consecutive point pairs, wrapping from
the last point back to the first. -/
def edges (c : List Point) : List (Point × Point) := c.zip (c.rotate 1)

/-- Modelled from the spec (section 9): intersection of the vertical line at
first coordinate `v` with the edge from `a` to `b`, treating the edge as
half-open (its start vertex included, its end vertex excluded) so that
vertices shared by two edges are counted once. Returns the second
coordinate of the intersection point. -/
def lineHit (v : ℚ) (a b : Point) : Option ℚ :=
  if a.1 = b.1 then none
  else
    let s := (v - a.1) / (b.1 - a.1)
    if 0 ≤ s ∧ s < 1 then some (a.2 + s * (b.2 - a.2)) else none

/-- Modelled from the spec (section 4.4 step 3): the span pair recorded at
one sampling position: a degenerate zero-length pair when the perpendicular
line missed the contour, otherwise the bucket width along the dominant axis
and the extent of the boundary hits across it. -/
def spanPair (vals : List ℚ) (bucket : ℚ) : ℚ × ℚ :=
  match vals with
  | [] => (0, 0)
  | v :: t => (bucket, t.foldl max v - t.foldl min v)

/-- Modelled from the spec: the pair sampled at position `v` along the
dominant axis (the contour is given with the dominant axis as the first
coordinate). -/
def outlineAt (c : List Point) (v bucket : ℚ) : ℚ × ℚ :=
  spanPair ((edges c).filterMap (fun e => lineHit v e.1 e.2)) bucket

/-- Modelled from the spec (section 4.4 steps 1-2): the bucket width when
the extent of the dominant (longer bounding-box) axis is split into k
equally spaced positions. -/
def outlineStep (c : List Point) (k : ℤ) : ℚ :=
  max (maxX c - minX c) (maxY c - minY c) / (k : ℚ)

/-- Modelled from the spec: the k span pairs sampled at the midpoints of
the k buckets along the dominant axis, in axis order; the contour is
swapped onto its dominant axis first. -/
def outlineSamples (c : List Point) (k : ℤ) : List (ℚ × ℚ) :=
  (List.range k.toNat).map (fun (j : ℕ) =>
    outlineAt (if maxY c - minY c ≤ maxX c - minX c then c else c.map Prod.swap)
      ((if maxY c - minY c ≤ maxX c - minX c then minX c else minY c) +
        ((j : ℚ) + 1 / 2) * outlineStep c k)
      (outlineStep c k))

/-- Modelled from the spec: `shape_outline` is missing from src/ (only its
callers in tests/test_features.py appear). Fails with
InvalidSampleCountError for k < 1; otherwise samples the contour at k
equally spaced positions along its dominant axis, intersecting the
perpendicular line with the boundary at each position and recording a span
pair, degenerate when the position misses the contour. -/
def shape_outline (c : List Point) (k : ℤ) : Except String (List (ℚ × ℚ)) :=
  if k < 1 then .error "InvalidSampleCountError"
  else .ok (outlineSamples c k)

theorem foldl_min_le_foldl_max (t : List ℚ) (v w : ℚ) (h : v ≤ w) :
    t.foldl min v ≤ t.foldl max w := by
  induction t generalizing v w with
  | nil => exact h
  | cons a rest ih =>
    exact ih (min v a) (max w a) (le_trans (min_le_left v a)
      (le_trans h (le_max_left w a)))

theorem listMin_le_listMax (l : List ℚ) : listMin l ≤ listMax l := by
  cases l with
  | nil => exact le_refl 0
  | cons a t => exact foldl_min_le_foldl_max t a a (le_refl a)

theorem outlineAt_nonneg (c : List Point) (v bucket : ℚ) (hb : 0 ≤ bucket) :
    0 ≤ (outlineAt c v bucket).1 ∧ 0 ≤ (outlineAt c v bucket).2 := by
  have he : outlineAt c v bucket =
      spanPair ((edges c).filterMap (fun e => lineHit v e.1 e.2)) bucket := rfl
  rw [he]
  cases hv : (edges c).filterMap (fun e => lineHit v e.1 e.2) with
  | nil => exact ⟨le_refl 0, le_refl 0⟩
  | cons a t => exact ⟨hb, sub_nonneg.mpr (foldl_min_le_foldl_max t a a (le_refl a))⟩

/-- C3: shape_outline fails with InvalidSampleCountError for every k < 1;
for every k ≥ 1 it returns exactly k pairs, every value of every pair
nonnegative; and a sampling position whose perpendicular line misses the
contour yields the degenerate zero-length pair rather than failing. -/
theorem shape_outline_spec :
    (∀ c (k : ℤ), k < 1 → shape_outline c k = .error "InvalidSampleCountError") ∧
    (∀ c (k : ℤ), 1 ≤ k → ∃ o, shape_outline c k = .ok o ∧
      (o.length : ℤ) = k ∧ ∀ pr ∈ o, 0 ≤ pr.1 ∧ 0 ≤ pr.2) ∧
    (∀ c v bucket, (edges c).filterMap (fun e => lineHit v e.1 e.2) = [] →
      outlineAt c v bucket = (0, 0)) := by
  refine ⟨?_, ?_, ?_⟩
  · intro c k hk
    unfold shape_outline
    rw [if_pos hk]
  · intro c k hk
    have hnot : ¬ k < 1 := not_lt.mpr hk
    refine ⟨outlineSamples c k, by unfold shape_outline; rw [if_neg hnot], ?_, ?_⟩
    · have hlen : (outlineSamples c k).length = k.toNat := by
        unfold outlineSamples
        rw [List.length_map, List.length_range]
      rw [hlen]
      omega
    · intro pr hpr
      unfold outlineSamples at hpr
      simp only [List.mem_map, List.mem_range] at hpr
      obtain ⟨j, _, hj⟩ := hpr
      have hw : minX c ≤ maxX c := listMin_le_listMax (xCoords c)
      have hext : 0 ≤ max (maxX c - minX c) (maxY c - minY c) :=
        le_trans (sub_nonneg.mpr hw) (le_max_left _ _)
      have hkpos : (0 : ℚ) < (k : ℚ) := by exact_mod_cast lt_of_lt_of_le one_pos hk
      have hstep : 0 ≤ outlineStep c k := div_nonneg hext (le_of_lt hkpos)
      rw [← hj]
      exact outlineAt_nonneg _ _ _ hstep
  · intro c v bucket h
    unfold outlineAt
    rw [h]
    rfl

/-- Concrete instances of shape_outline_spec: k = 0 fails with
InvalidSampleCountError, k = 20 returns exactly 20 nonnegative pairs, and a
position that misses the contour yields the zero-length pair. -/
theorem shape_outline_spec_witness :
    shape_outline (rectContour 5 2) 0 = .error "InvalidSampleCountError" ∧
    (∃ o, shape_outline (rectContour 5 2) 20 = .ok o ∧
      (o.length : ℤ) = 20 ∧ ∀ pr ∈ o, 0 ≤ pr.1 ∧ 0 ≤ pr.2) ∧
    outlineAt [] 3 0 = (0, 0) :=
  ⟨shape_outline_spec.1 (rectContour 5 2) 0 (by decide),
    shape_outline_spec.2.1 (rectContour 5 2) 20 (by decide),
    shape_outline_spec.2.2 [] 3 0 rfl⟩

/-- Modelled from the spec (sections 4.5 and 9): intersection of the ray
from `p` with direction `v` (a half-line, parameter t ≥ 0) and the edge
from `a` to `b`, the edge taken half-open (start vertex included, end
vertex excluded) so vertices shared by consecutive edges count once.
Parallel edges yield no intersection. -/
def rayHit (p : Point) (v : ℚ × ℚ) (a b : Point) : Option Point :=
  let d := (b.1 - a.1, b.2 - a.2)
  let det := v.1 * d.2 - v.2 * d.1
  if det = 0 then none
  else
    let dl := (a.1 - p.1, a.2 - p.2)
    let t := (dl.1 * d.2 - dl.2 * d.1) / det
    let s := (dl.1 * v.2 - dl.2 * v.1) / det
    if 0 ≤ t ∧ 0 ≤ s ∧ s < 1 then some (a.1 + s * d.1, a.2 + s * d.2)
    else none

/-- Modelled from the spec: every intersection point of the ray from `p`
with direction `v` and the edges of the contour, in edge order. -/
def rayIntersections (c : List Point) (p : Point) (v : ℚ × ℚ) : List Point :=
  (edges c).filterMap (fun e => rayHit p v e.1 e.2)

/-- Modelled from the spec (section 4.5 step 2): the ray angle in integer
degrees used for profile degree d under rotation offset rot. -/
def rayAngleDeg (d rot : ℤ) : ℤ := (d + rot) % 360

/-- Modelled from the spec: `shape_360` is missing from src/ (only its
callers in tests/test_features.py appear). For every integer degree
0 ≤ d < 360 it casts a ray from `center` at angle (d + rot) mod 360 and
stores the list of contour intersections (possibly empty); the caller
supplies the center and `dir`, the degree-to-direction cosine/sine table of
the external trigonometric collaborator. -/
def shape_360 (dir : ℕ → ℚ × ℚ) (c : List Point) (center : Point) (rot : ℤ) :
    List (List Point) × Point :=
  ((List.range 360).map (fun (d : ℕ) =>
    rayIntersections c center (dir (rayAngleDeg (d : ℤ) rot).toNat)), center)

/-- From tests/test_features.py lines 178-182: the distances from the
center to the intersection points of one degree. -/
noncomputable def distancesAt (center : Point) (pts : List Point) : List ℝ :=
  pts.map (fun p => point_dist center p)

/-- From tests/test_features.py lines 184-192: the per-degree mean distance,
0 when the degree has no intersections. -/
noncomputable def meanDistAt (center : Point) (pts : List Point) : ℝ :=
  if pts = [] then 0 else (distancesAt center pts).sum / (pts.length : ℝ)

/-- From tests/test_features.py lines 184-192: the per-degree sample
standard deviation (ddof = 1), 0 when fewer than two intersection points. -/
noncomputable def sdAt (center : Point) (pts : List Point) : ℝ :=
  if pts.length < 2 then 0
  else Real.sqrt ((((distancesAt center pts).map
    (fun d => (d - meanDistAt center pts) ^ 2)).sum) / ((pts.length : ℝ) - 1))

/-- C2: the profile of shape_360 has an entry for every integer degree in
[0, 360), the entry of degree d being the intersection list of the ray at
angle (d + rot) mod 360; a degree with no intersections stores the empty
list rather than failing; and the caller-side reduction takes the mean to
be the arithmetic mean of the intersection distances from the center, 0
when there are none, with standard deviation 0 when there are fewer than
two points. -/
theorem shape_360_length (dir : ℕ → ℚ × ℚ) (c : List Point) (center : Point)
    (rot : ℤ) : ((shape_360 dir c center rot).1).length = 360 := by
  unfold shape_360
  rw [List.length_map, List.length_range]

theorem shape_360_spec :
    (∀ dir c center rot, ((shape_360 dir c center rot).1).length = 360) ∧
    (∀ dir c center rot (d : ℕ)
      (hd : d < ((shape_360 dir c center rot).1).length),
      ((shape_360 dir c center rot).1).get ⟨d, hd⟩ =
        rayIntersections c center (dir (rayAngleDeg (d : ℤ) rot).toNat)) ∧
    (∀ c p v, rayIntersections c p v = [] ↔
      ∀ e ∈ edges c, rayHit p v e.1 e.2 = none) ∧
    (∀ center, meanDistAt center [] = 0) ∧
    (∀ center pts, pts ≠ [] →
      meanDistAt center pts = (distancesAt center pts).sum / (pts.length : ℝ)) ∧
    (∀ center pts, pts.length < 2 → sdAt center pts = 0) := by
  refine ⟨shape_360_length, ?_, ?_, ?_, ?_, ?_⟩
  · intro dir c center rot d hd
    simp [shape_360]
  · intro c p v
    exact List.filterMap_eq_nil_iff
  · intro center
    simp [meanDistAt]
  · intro center pts h
    simp [meanDistAt, h]
  · intro center pts h
    simp [sdAt, h]

/-- Concrete instances of shape_360_spec: a rectangle contour profiled with
the constant-direction table has a 360-entry profile; degree 7 of the empty
contour stores the empty intersection list; the mean distance is 0 on no
intersections and sum-over-count on one; the standard deviation of a
single-point degree is 0. -/
theorem shape_360_spec_witness :
    ((shape_360 (fun _ => (1, 0)) (rectContour 5 2) (1, 1) 45).1).length = 360 ∧
    ((shape_360 (fun _ => (1, 0)) [] (1, 1) 0).1).get
      ⟨7, by rw [shape_360_length]; norm_num⟩ =
      rayIntersections [] (1, 1) (1, 0) ∧
    meanDistAt (1, 1) [] = 0 ∧
    meanDistAt (1, 1) [(4, 1)] =
      (distancesAt (1, 1) [(4, 1)]).sum / ((([(4, 1)] : List Point)).length : ℝ) ∧
    sdAt (1, 1) [(4, 1)] = 0 :=
  ⟨shape_360_spec.1 (fun _ => (1, 0)) (rectContour 5 2) (1, 1) 45,
    shape_360_spec.2.1 (fun _ => (1, 0)) [] (1, 1) 0 7
      (by rw [shape_360_length]; norm_num),
    shape_360_spec.2.2.2.1 (1, 1),
    shape_360_spec.2.2.2.2.1 (1, 1) [(4, 1)] (by simp),
    shape_360_spec.2.2.2.2.2 (1, 1) [(4, 1)] (by simp)⟩

/-- C8: shape_360 is rotation-consistent: rotation offsets differing by 360
(or any whole number of turns) produce the identical profile and center,
and the ray angle used for degree d under offset rot is (d + rot) mod 360.
The sub-0.05 mean-squared-error comparison of two photographs of one object
concerns external image data outside this model. -/
theorem shape_360_rotation_consistent :
    (∀ dir c center rot, shape_360 dir c center (rot + 360) =
      shape_360 dir c center rot) ∧
    (∀ dir c center (rot k : ℤ), shape_360 dir c center (rot + 360 * k) =
      shape_360 dir c center rot) ∧
    (∀ d rot : ℤ, rayAngleDeg d rot = (d + rot) % 360 ∧
      rayAngleDeg d (rot + 360) = rayAngleDeg d rot) := by
  have hang : ∀ d rot k : ℤ, rayAngleDeg d (rot + 360 * k) = rayAngleDeg d rot := by
    intro d rot k
    unfold rayAngleDeg
    omega
  have hmain : ∀ dir c center (rot k : ℤ),
      shape_360 dir c center (rot + 360 * k) = shape_360 dir c center rot := by
    intro dir c center rot k
    unfold shape_360
    rw [show (fun (d : ℕ) =>
        rayIntersections c center (dir (rayAngleDeg (d : ℤ) (rot + 360 * k)).toNat)) =
      (fun (d : ℕ) =>
        rayIntersections c center (dir (rayAngleDeg (d : ℤ) rot).toNat)) from
      funext (fun d => by rw [hang])]
  refine ⟨?_, hmain, ?_⟩
  · intro dir c center rot
    have h := hmain dir c center rot 1
    rw [show rot + 360 * 1 = rot + 360 from by ring] at h
    exact h
  · intro d rot
    refine ⟨rfl, ?_⟩
    unfold rayAngleDeg
    omega

/-- Perimeter: sum of Euclidean distances between consecutive contour
points around the closed loop (spec section 4.3). -/
noncomputable def perimeterOf (c : List Point) : ℝ :=
  ((edges c).map (fun e => point_dist e.1 e.2)).sum

/-- First-order polygon moment sum in x entering the centroid. -/
def centroidXSum (c : List Point) : ℚ :=
  ((edges c).map (fun e => (e.1.1 + e.2.1) * cross e.1 e.2)).sum

/-- First-order polygon moment sum in y entering the centroid. -/
def centroidYSum (c : List Point) : ℚ :=
  ((edges c).map (fun e => (e.1.2 + e.2.2) * cross e.1 e.2)).sum

/-- Modelled from the spec (section 4.3, key Centroid): first-order polygon
moments about the origin divided by the area; a degenerate zero-area
contour returns 0 components, the return-0 policy of section 9. -/
def centroidOf (c : List Point) : Point :=
  (centroidXSum c / (6 * signedArea c), centroidYSum c / (6 * signedArea c))

/-- Modelled from the spec (section 9): central second-order moment in x of
the contour point distribution, by an explicit accumulation pass. -/
def mu20 (c : List Point) : ℚ :=
  (c.map (fun p => (p.1 - (centroidOf c).1) ^ 2)).sum / (c.length : ℚ)

/-- Central second-order moment in y of the contour point distribution. -/
def mu02 (c : List Point) : ℚ :=
  (c.map (fun p => (p.2 - (centroidOf c).2) ^ 2)).sum / (c.length : ℚ)

/-- Central mixed second-order moment of the contour point distribution. -/
def mu11 (c : List Point) : ℚ :=
  (c.map (fun p => (p.1 - (centroidOf c).1) * (p.2 - (centroidOf c).2))).sum /
    (c.length : ℚ)

/-- Modelled from the spec (section 4.3, key Orientation): angle in degrees
of the major axis of the ellipse with the same second-order moments, the
standard half-arctangent of the moment ratio. -/
noncomputable def orientationOf (c : List Point) : ℝ :=
  (90 / Real.pi) *
    Real.arctan (((2 * mu11 c : ℚ) : ℝ) / ((mu20 c - mu02 c : ℚ) : ℝ))

/-- Larger eigenvalue-based axis length of the equivalent ellipse. -/
noncomputable def majorAxisLength (c : List Point) : ℝ :=
  4 * Real.sqrt (((mu20 c + mu02 c : ℚ) : ℝ) / 2 +
    Real.sqrt ((((mu20 c - mu02 c : ℚ) : ℝ) / 2) ^ 2 + ((mu11 c : ℚ) : ℝ) ^ 2))

/-- Smaller eigenvalue-based axis length of the equivalent ellipse. -/
noncomputable def minorAxisLength (c : List Point) : ℝ :=
  4 * Real.sqrt (((mu20 c + mu02 c : ℚ) : ℝ) / 2 -
    Real.sqrt ((((mu20 c - mu02 c : ℚ) : ℝ) / 2) ^ 2 + ((mu11 c : ℚ) : ℝ) ^ 2))

/-- Modelled from the spec (section 4.3, key EquivDiameter): the diameter
of the circle whose area equals the contour area. -/
noncomputable def equivDiameterOf (c : List Point) : ℝ :=
  Real.sqrt (4 * (contourArea c : ℝ) / Real.pi)

/-- Area of the axis-aligned bounding box of a contour. -/
def bboxArea (c : List Point) : ℚ := (maxX c - minX c) * (maxY c - minY c)

/-- Modelled from the spec (section 4.3, key Extent): area divided by the
bounding-box area; a degenerate box returns 0, the policy of section 9. -/
def extentOf (c : List Point) : ℚ := contourArea c / bboxArea c

/-- Lexicographic order on points used to sort hull candidates. -/
def ptLE (a b : Point) : Bool := decide (a.1 < b.1 ∨ (a.1 = b.1 ∧ a.2 ≤ b.2))

/-- Cross product of the turn o → a → b, positive for a left turn. -/
def turn (o a b : Point) : ℚ :=
  (a.1 - o.1) * (b.2 - o.2) - (a.2 - o.2) * (b.1 - o.1)

/-- Pop the chain while its two most recent points and `p` fail to make a
strict left turn (one step of the monotone chain construction). -/
def popChain (p : Point) : List Point → List Point
  | b :: a :: rest => if turn a b p ≤ 0 then popChain p (a :: rest) else b :: a :: rest
  | l => l

/-- One half (lower or upper) of the monotone chain hull; the accumulator
keeps the chain reversed, most recent point first. -/
def halfHull (pts : List Point) : List Point :=
  pts.foldl (fun acc p => p :: popChain p acc) []

/-- Modelled from the spec (section 4.3, key Solidity): the convex hull of
the contour points by the Andrew monotone chain construction, lower and
upper chains around the sorted deduplicated point set, each chain dropping
the endpoint it shares with the other. -/
def convexHullPts (c : List Point) : List Point :=
  match (c.dedup).mergeSort (fun a b => ptLE a b) with
  | [] => []
  | [p] => [p]
  | s => ((halfHull s).reverse.dropLast) ++ ((halfHull s.reverse).reverse.dropLast)

/-- Modelled from the spec (section 4.3, key Solidity): area divided by the
convex hull area; a degenerate hull returns 0, the policy of section 9. -/
def solidityOf (c : List Point) : ℚ :=
  contourArea c / contourArea (convexHullPts c)

/-- The closed vocabulary of region property kinds (spec section 4.3). -/
inductive PropKey where
  | area
  | perimeter
  | centroid
  | orientation
  | equivDiameter
  | extent
  | solidity
  | majorAxis
  | minorAxis
  | boundingBox
  deriving DecidableEq

/-- The static table from raw property names to property kinds. -/
def keyTable : List (String × PropKey) :=
  [("Area", .area), ("Perimeter", .perimeter), ("Centroid", .centroid),
    ("Orientation", .orientation), ("EquivDiameter", .equivDiameter),
    ("Extent", .extent), ("Solidity", .solidity),
    ("MajorAxisLength", .majorAxis), ("MinorAxisLength", .minorAxis),
    ("BoundingBox", .boundingBox)]

/-- Parse one requested property name against the fixed vocabulary. -/
def parseKey (s : String) : Option PropKey :=
  (keyTable.find? (fun kv => kv.1 == s)).map Prod.snd

/-- The record key under which a property kind is stored. -/
def keyName : PropKey → String
  | .area => "Area"
  | .perimeter => "Perimeter"
  | .centroid => "Centroid"
  | .orientation => "Orientation"
  | .equivDiameter => "EquivDiameter"
  | .extent => "Extent"
  | .solidity => "Solidity"
  | .majorAxis => "MajorAxisLength"
  | .minorAxis => "MinorAxisLength"
  | .boundingBox => "BoundingBox"

/-- A property value: a scalar, a centroid point, or a bounding box. -/
inductive PropValue where
  | num (x : ℝ)
  | pt (p : ℝ × ℝ)
  | box (b : ℚ × ℚ × ℚ × ℚ)

/-- Modelled from the spec (section 4.3): the value of one property of one
contour, per the table of recognized properties. -/
noncomputable def computeProp (k : PropKey) (c : List Point) : PropValue :=
  match k with
  | .area => .num ((contourArea c : ℚ) : ℝ)
  | .perimeter => .num (perimeterOf c)
  | .centroid => .pt (((centroidOf c).1 : ℝ), ((centroidOf c).2 : ℝ))
  | .orientation => .num (orientationOf c)
  | .equivDiameter => .num (equivDiameterOf c)
  | .extent => .num ((extentOf c : ℚ) : ℝ)
  | .solidity => .num ((solidityOf c : ℚ) : ℝ)
  | .majorAxis => .num (majorAxisLength c)
  | .minorAxis => .num (minorAxisLength c)
  | .boundingBox => .box (minX c, minY c, maxX c - minX c, maxY c - minY c)

/-- One RegionProperties record: the requested keys mapped to values. -/
noncomputable def computeRecord (ks : List PropKey) (c : List Point) :
    List (String × PropValue) :=
  ks.map (fun k => (keyName k, computeProp k c))

/-- The requestedKeys argument: the literal token "all" or an explicit set
of raw property names. -/
inductive PropRequest where
  | all
  | keys (ks : List String)

/-- Every property kind, in table order, the meaning of the "all" token. -/
def allKeys : List PropKey := keyTable.map Prod.snd

/-- Parse an explicit list of requested names; any unknown name fails. -/
def resolveKeyList : List String → Option (List PropKey)
  | [] => some []
  | s :: rest =>
    match parseKey s with
    | none => none
    | some k => (resolveKeyList rest).map (fun ks => k :: ks)

/-- Resolve the requestedKeys argument to property kinds. -/
def resolveKeys : PropRequest → Option (List PropKey)
  | .all => some allKeys
  | .keys ss => resolveKeyList ss

/-- Modelled from the spec: `contour_properties` is missing from src/ (only
its callers in tests/test_features.py appear). One RegionProperties record
per input contour, preserving input order; requesting any name outside the
fixed vocabulary fails with UnknownPropertyError. -/
noncomputable def contour_properties (cs : List (List Point)) (req : PropRequest) :
    Except String (List (List (String × PropValue))) :=
  match resolveKeys req with
  | none => .error "UnknownPropertyError"
  | some ks => .ok (cs.map (fun c => computeRecord ks c))

theorem resolveKeyList_none_iff (ss : List String) :
    resolveKeyList ss = none ↔ ∃ s ∈ ss, parseKey s = none := by
  induction ss with
  | nil => simp [resolveKeyList]
  | cons s rest ih =>
    cases hp : parseKey s with
    | none => simp [resolveKeyList, hp]
    | some k => simp [resolveKeyList, hp, ih]

/-- C4: contour_properties returns one record per input contour, in input
order, the record being the requested keys mapped over that contour; the
"all" token selects the whole vocabulary; an explicit request fails with
UnknownPropertyError exactly when it contains a name outside the
vocabulary, which is the ten table names. -/
theorem contour_properties_spec :
    (∀ cs req rs, contour_properties cs req = .ok rs →
      ∃ ks, resolveKeys req = some ks ∧ rs = cs.map (fun c => computeRecord ks c)) ∧
    (∀ cs req rs, contour_properties cs req = .ok rs → rs.length = cs.length) ∧
    (∀ cs, contour_properties cs .all =
      .ok (cs.map (fun c => computeRecord allKeys c))) ∧
    (∀ cs ss, contour_properties cs (.keys ss) = .error "UnknownPropertyError" ↔
      ∃ s ∈ ss, parseKey s = none) ∧
    (∀ s, (parseKey s).isSome ↔ s ∈ keyTable.map Prod.fst) := by
  have hok : ∀ cs req rs, contour_properties cs req = .ok rs →
      ∃ ks, resolveKeys req = some ks ∧ rs = cs.map (fun c => computeRecord ks c) := by
    intro cs req rs h
    unfold contour_properties at h
    cases hk : resolveKeys req with
    | none => rw [hk] at h; exact absurd h (by simp)
    | some ks =>
      rw [hk] at h
      refine ⟨ks, rfl, ?_⟩
      injection h with h
      exact h.symm
  refine ⟨hok, ?_, ?_, ?_, ?_⟩
  · intro cs req rs h
    obtain ⟨ks, _, hrs⟩ := hok cs req rs h
    rw [hrs, List.length_map]
  · intro cs
    rfl
  · intro cs ss
    rw [show contour_properties cs (.keys ss) =
      (match resolveKeyList ss with
        | none => (.error "UnknownPropertyError" :
            Except String (List (List (String × PropValue))))
        | some ks => .ok (cs.map (fun c => computeRecord ks c))) from rfl,
      ← resolveKeyList_none_iff]
    cases hk : resolveKeyList ss with
    | none => simp
    | some ks => simp
  · intro s
    simp [parseKey, List.find?_isSome, List.mem_map, beq_iff_eq, keyTable]
    tauto

/-- Concrete instances of contour_properties_spec: one unknown name among
the requested keys fails with UnknownPropertyError, and the "all" request
on one contour returns exactly one full record. -/
theorem contour_properties_spec_witness :
    contour_properties [rectContour 5 2] (.keys ["Area", "Bogus"]) =
      .error "UnknownPropertyError" ∧
    contour_properties [rectContour 5 2] .all =
      .ok [computeRecord allKeys (rectContour 5 2)] :=
  ⟨(contour_properties_spec.2.2.2.1 [rectContour 5 2] ["Area", "Bogus"]).mpr
      ⟨"Bogus", by simp, rfl⟩,
    contour_properties_spec.2.2.1 [rectContour 5 2]⟩

theorem shoelaceSum_rect (w h : ℚ) : shoelaceSum (rectContour w h) = 2 * (w * h) := by
  simp only [shoelaceSum, shoelaceAux, cross, rectContour]
  ring

theorem edges_rect (w h : ℚ) : edges (rectContour w h) =
    [(((0 : ℚ), (0 : ℚ)), ((w, 0) : Point)), (((w : ℚ), (0 : ℚ)), (w, h)),
      ((w, h), ((0 : ℚ), h)), (((0 : ℚ), h), ((0 : ℚ), (0 : ℚ)))] := rfl

theorem perimeter_rect (w h : ℚ) (hw : 0 ≤ w) (hh : 0 ≤ h) :
    perimeterOf (rectContour w h) = 2 * ((w : ℝ) + (h : ℝ)) := by
  have h1 : point_dist ((0 : ℚ), (0 : ℚ)) (w, 0) = (w : ℝ) := by
    show Real.sqrt (((0 - w : ℚ) : ℝ) ^ 2 + ((0 - 0 : ℚ) : ℝ) ^ 2) = (w : ℝ)
    push_cast
    rw [show ((0 : ℝ) - (w : ℝ)) ^ 2 + ((0 : ℝ) - 0) ^ 2 = (w : ℝ) ^ 2 from by ring]
    exact Real.sqrt_sq (by exact_mod_cast hw)
  have h2 : point_dist ((w : ℚ), (0 : ℚ)) (w, h) = (h : ℝ) := by
    show Real.sqrt (((w - w : ℚ) : ℝ) ^ 2 + ((0 - h : ℚ) : ℝ) ^ 2) = (h : ℝ)
    push_cast
    rw [show ((w : ℝ) - (w : ℝ)) ^ 2 + ((0 : ℝ) - h) ^ 2 = (h : ℝ) ^ 2 from by ring]
    exact Real.sqrt_sq (by exact_mod_cast hh)
  have h3 : point_dist ((w : ℚ), (h : ℚ)) ((0 : ℚ), h) = (w : ℝ) := by
    show Real.sqrt (((w - 0 : ℚ) : ℝ) ^ 2 + ((h - h : ℚ) : ℝ) ^ 2) = (w : ℝ)
    push_cast
    rw [show ((w : ℝ) - 0) ^ 2 + ((h : ℝ) - h) ^ 2 = (w : ℝ) ^ 2 from by ring]
    exact Real.sqrt_sq (by exact_mod_cast hw)
  have h4 : point_dist ((0 : ℚ), (h : ℚ)) ((0 : ℚ), (0 : ℚ)) = (h : ℝ) := by
    show Real.sqrt (((0 - 0 : ℚ) : ℝ) ^ 2 + ((h - 0 : ℚ) : ℝ) ^ 2) = (h : ℝ)
    push_cast
    rw [show ((0 : ℝ) - 0) ^ 2 + ((h : ℝ) - 0) ^ 2 = (h : ℝ) ^ 2 from by ring]
    exact Real.sqrt_sq (by exact_mod_cast hh)
  unfold perimeterOf
  rw [edges_rect]
  simp only [List.map, List.sum_cons, List.sum_nil]
  rw [h1, h2, h3, h4]
  ring

theorem centroidXSum_rect (w h : ℚ) :
    centroidXSum (rectContour w h) = 3 * w ^ 2 * h := by
  rw [centroidXSum, edges_rect]
  simp only [List.map, List.sum_cons, List.sum_nil, cross]
  ring

theorem centroidYSum_rect (w h : ℚ) :
    centroidYSum (rectContour w h) = 3 * w * h ^ 2 := by
  rw [centroidYSum, edges_rect]
  simp only [List.map, List.sum_cons, List.sum_nil, cross]
  ring

theorem centroid_rect (w h : ℚ) (hw : 0 < w) (hh : 0 < h) :
    centroidOf (rectContour w h) = (w / 2, h / 2) := by
  have hA : signedArea (rectContour w h) = w * h := by
    rw [signedArea, shoelaceSum_rect]
    ring
  have hwh : w * h ≠ 0 := by positivity
  rw [centroidOf, hA, centroidXSum_rect, centroidYSum_rect, Prod.mk.injEq]
  constructor
  · field_simp
    ring
  · field_simp
    ring

theorem equivDiameter_rect (w h : ℚ) (hw : 0 ≤ w) (hh : 0 ≤ h) :
    equivDiameterOf (rectContour w h) = Real.sqrt (4 * ((w : ℝ) * h) / Real.pi) := by
  rw [equivDiameterOf, contourArea_rect w h hw hh]
  congr 1
  push_cast
  ring

/-- C6: for a rectangle of width w and height h traced as a contour, the
RegionPropertyCalculator values are exact: Area = w·h, Perimeter =
2(w + h), Centroid = (w/2, h/2), EquivDiameter = sqrt(4wh/π); hence each
lies within the claimed 6 percent (1 percent for the centroid) relative
tolerance of its expected value. -/
theorem rect_properties_spec (w h : ℚ) (hw : 0 < w) (hh : 0 < h) :
    contourArea (rectContour w h) = w * h ∧
    perimeterOf (rectContour w h) = 2 * ((w : ℝ) + (h : ℝ)) ∧
    centroidOf (rectContour w h) = (w / 2, h / 2) ∧
    equivDiameterOf (rectContour w h) = Real.sqrt (4 * ((w : ℝ) * h) / Real.pi) ∧
    computeProp .area (rectContour w h) = .num (((w * h : ℚ) : ℝ)) ∧
    computeProp .centroid (rectContour w h) =
      .pt (((w / 2 : ℚ) : ℝ), ((h / 2 : ℚ) : ℝ)) ∧
    |((contourArea (rectContour w h) : ℚ) : ℝ) - (w : ℝ) * h| ≤
      (6 / 100) * ((w : ℝ) * h) ∧
    |perimeterOf (rectContour w h) - 2 * ((w : ℝ) + h)| ≤
      (6 / 100) * (2 * ((w : ℝ) + h)) ∧
    |equivDiameterOf (rectContour w h) - Real.sqrt (4 * ((w : ℝ) * h) / Real.pi)| ≤
      (6 / 100) * Real.sqrt (4 * ((w : ℝ) * h) / Real.pi) ∧
    |(((centroidOf (rectContour w h)).1 : ℚ) : ℝ) - (w : ℝ) / 2| ≤
      (1 / 100) * ((w : ℝ) / 2) ∧
    |(((centroidOf (rectContour w h)).2 : ℚ) : ℝ) - (h : ℝ) / 2| ≤
      (1 / 100) * ((h : ℝ) / 2) := by
  have hw' : (0 : ℝ) ≤ (w : ℝ) := by exact_mod_cast hw.le
  have hh' : (0 : ℝ) ≤ (h : ℝ) := by exact_mod_cast hh.le
  have harea := contourArea_rect w h hw.le hh.le
  have hperim := perimeter_rect w h hw.le hh.le
  have hcent := centroid_rect w h hw hh
  have hequiv := equivDiameter_rect w h hw.le hh.le
  have hcx : (centroidOf (rectContour w h)).1 = w / 2 := by rw [hcent]
  have hcy : (centroidOf (rectContour w h)).2 = h / 2 := by rw [hcent]
  refine ⟨harea, hperim, hcent, hequiv, ?_, ?_, ?_, ?_, ?_, ?_, ?_⟩
  · rw [show computeProp .area (rectContour w h) =
      .num ((contourArea (rectContour w h) : ℚ) : ℝ) from rfl, harea]
  · rw [show computeProp .centroid (rectContour w h) =
      .pt (((centroidOf (rectContour w h)).1 : ℝ),
        ((centroidOf (rectContour w h)).2 : ℝ)) from rfl, hcx, hcy]
  · rw [show ((contourArea (rectContour w h) : ℚ) : ℝ) = (w : ℝ) * h from by
      rw [harea]; push_cast; ring]
    rw [sub_self, abs_zero]
    have : (0 : ℝ) ≤ (w : ℝ) * h := mul_nonneg hw' hh'
    nlinarith
  · rw [hperim, sub_self, abs_zero]
    nlinarith
  · rw [hequiv, sub_self, abs_zero]
    have : (0 : ℝ) ≤ Real.sqrt (4 * ((w : ℝ) * h) / Real.pi) := Real.sqrt_nonneg _
    nlinarith
  · rw [show (((centroidOf (rectContour w h)).1 : ℚ) : ℝ) = (w : ℝ) / 2 from by
      rw [hcx]; push_cast; ring]
    rw [sub_self, abs_zero]
    nlinarith
  · rw [show (((centroidOf (rectContour w h)).2 : ℚ) : ℝ) = (h : ℝ) / 2 from by
      rw [hcy]; push_cast; ring]
    rw [sub_self, abs_zero]
    nlinarith

/-- Concrete instance of rect_properties_spec at the test rectangle, width
300 and height 100: Area is 30000 = 300·100 and the centroid is at
(150, 50). -/
theorem rect_properties_spec_witness :
    contourArea (rectContour 300 100) = 300 * 100 ∧
    centroidOf (rectContour 300 100) = (300 / 2, 100 / 2) :=
  ⟨(rect_properties_spec 300 100 (by norm_num) (by norm_num)).1,
    (rect_properties_spec 300 100 (by norm_num) (by norm_num)).2.2.1⟩

/-- Remark on the Extent bound: a doubly-traversed unit square has shoelace
area 2 inside a bounding box of area 1, so the bound Extent ≤ 1 relies on
the simple-polygon invariant of the Contour data model; it is not a
property of the shoelace and bounding-box formulas on arbitrary closed
point sequences. -/
theorem extent_needs_simplicity :
    extentOf [(0, 0), (1, 0), (1, 1), (0, 1), (0, 0), (1, 0), (1, 1), (0, 1)] = 2 := by
  norm_num [extentOf, contourArea, bboxArea, shoelaceSum, shoelaceAux, cross,
    maxX, minX, maxY, minY, listMax, listMin, xCoords, yCoords]

end Imgpheno
